import Mathlib

/-!
A verification development for the wyag repository (a miniature Git plumbing
layer).  The Python sources (`gitobject.py`, `gitobject_utils.py`) are shallowly
embedded: byte strings become `List Nat` (one element per byte), Python `str`
values that name paths become the `List Nat` of their UTF-8 bytes (UTF-8 byte
order agrees with code-point order, so lexicographic comparisons coincide),
hex identifiers become Lean `String`, and fallible code returns `PyRes`.
File-system state (the object store, ref files, the index file) is passed
explicitly.  Unbounded `while` loops and recursion through the file system are
given explicit fuel; exhausting it models Python divergence / RecursionError.
-/

/-- The failure modes of the embedded code.  `malformed` and `unknownType` are
the two `Exception`s raised by `object_read`; `notFound` and `ambiguous` are
the two raised by `object_find`; the rest are ordinary Python runtime errors
(AttributeError, ValueError, ...) reachable in the sources. -/
inductive PyErr where
  | attributeError
  | valueError
  | overflowError
  | unicodeDecodeError
  | typeError
  | keyError
  | indexError
  | nameError
  | assertFail
  | malformed
  | unknownType
  | notFound
  | ambiguous (candidates : List (Option String))
  | nonTermination
deriving DecidableEq, Repr

/-- Result of running a piece of Python code: a value, or a raised exception. -/
inductive PyRes (α : Type) where
  | ok (val : α)
  | raise (err : PyErr)
deriving DecidableEq, Repr

def PyRes.bind {α β : Type} : PyRes α → (α → PyRes β) → PyRes β
  | .ok v, f => f v
  | .raise e, _ => .raise e

/-- Bytes of an ASCII string literal (all our literals are ASCII, where UTF-8
agrees with the code points). -/
def strBytes (s : String) : List Nat := s.data.map Char.toNat

/-- First index of byte `b` in a list, if any. -/
def bFindAux (b : Nat) : List Nat → Option Nat
  | [] => none
  | c :: rest => if c = b then some 0 else (bFindAux b rest).map (· + 1)

/-- Python `bytes.find(b, start)`: `-1` when absent; a negative `start` counts
from the end and is clamped at 0. -/
def pyByteFind (raw : List Nat) (b : Nat) (start : Int) : Int :=
  let s : Nat := (if start < 0 then max ((raw.length : Int) + start) 0
                  else min start (raw.length : Int)).toNat
  match bFindAux b (raw.drop s) with
  | some i => ((s + i : Nat) : Int)
  | none => -1

/-- Python slice `raw[i:j]` (step 1): negative indices count from the end,
out-of-range indices are clamped. -/
def pySlice (raw : List Nat) (i j : Int) : List Nat :=
  let n : Int := raw.length
  let i' : Int := if i < 0 then max (n + i) 0 else min i n
  let j' : Int := if j < 0 then max (n + j) 0 else min j n
  (raw.take j'.toNat).drop i'.toNat

def isAsciiDigit (c : Nat) : Bool := 48 ≤ c && c ≤ 57

def pyIsSpace (c : Nat) : Bool := c = 32 || (9 ≤ c && c ≤ 13)

/-- Python `int(raw.decode("ascii"))`: the ASCII decode rejects bytes ≥ 128,
then `int` strips surrounding whitespace, accepts an optional sign and at
least one decimal digit, and raises ValueError otherwise.  (Underscore digit
separators, never produced by this repository, are not modelled.) -/
def pyInt (bs : List Nat) : PyRes Int :=
  if bs.any (fun c => 128 ≤ c) then .raise .unicodeDecodeError
  else
    let t := ((bs.dropWhile pyIsSpace).reverse.dropWhile pyIsSpace).reverse
    match t with
    | [] => .raise .valueError
    | c :: rest =>
      let ds := if c = 45 || c = 43 then rest else c :: rest
      if !ds.isEmpty && ds.all isAsciiDigit then
        let v : Int := ds.foldl (fun (a : Int) (d : Nat) => a * 10 + ((d : Int) - 48)) 0
        .ok (if c = 45 then -v else v)
      else .raise .valueError

/-- Python `int.from_bytes(bs, "big")` (0 on the empty string, as in Python). -/
def bytesToNatBE (bs : List Nat) : Nat := bs.foldl (fun a b => a * 256 + b) 0

/-- Python `n.to_bytes(len, byteorder=bo)`: the byteorder string is validated
first (only "little" and "big" are accepted), then the value is range-checked. -/
def intToBytesPy (n len : Nat) (bo : String) : PyRes (List Nat) :=
  if bo ≠ "big" && bo ≠ "little" then .raise .valueError
  else if 256 ^ len ≤ n then .raise .overflowError
  else
    let be := (List.range len).map (fun i => n / 256 ^ (len - 1 - i) % 256)
    .ok (if bo = "big" then be else be.reverse)

/-- Python `format(n, "0<width>x")`: lowercase hex, left-padded with zeros to at
least `width` digits. -/
def pyFormatHex (n width : Nat) : String :=
  let ds := Nat.toDigits 16 n
  String.mk (List.replicate (width - ds.length) '0' ++ ds)

/-- Python `int(s, 16)` restricted to plain hex strings (no sign/whitespace,
which identifiers never carry): ValueError when empty or not all hex digits. -/
def pyIntHex (s : String) : PyRes Nat :=
  let hv : Char → Option Nat := fun c =>
    if '0' ≤ c ∧ c ≤ '9' then some (c.toNat - 48)
    else if 'a' ≤ c ∧ c ≤ 'f' then some (c.toNat - 87)
    else if 'A' ≤ c ∧ c ≤ 'F' then some (c.toNat - 55)
    else none
  if s.data.isEmpty then .raise .valueError
  else if s.data.all (fun c => (hv c).isSome) then
    .ok (s.data.foldl (fun a c => a * 16 + ((hv c).getD 0)) 0)
  else .raise .valueError

/-- Strict UTF-8 validity (RFC 3629, what CPython's `bytes.decode("utf8")`
enforces: no overlong forms, no surrogates, at most U+10FFFF). -/
def utf8Cont (b : Nat) : Bool := 0x80 ≤ b && b ≤ 0xBF

def utf8Valid : List Nat → Bool
  | [] => true
  | b :: rest =>
    if b ≤ 0x7F then utf8Valid rest
    else if 0xC2 ≤ b && b ≤ 0xDF then
      match rest with
      | b2 :: r => utf8Cont b2 && utf8Valid r
      | [] => false
    else if b = 0xE0 then
      match rest with
      | b2 :: b3 :: r => (0xA0 ≤ b2 && b2 ≤ 0xBF) && utf8Cont b3 && utf8Valid r
      | _ => false
    else if (0xE1 ≤ b && b ≤ 0xEC) || b = 0xEE || b = 0xEF then
      match rest with
      | b2 :: b3 :: r => utf8Cont b2 && utf8Cont b3 && utf8Valid r
      | _ => false
    else if b = 0xED then
      match rest with
      | b2 :: b3 :: r => (0x80 ≤ b2 && b2 ≤ 0x9F) && utf8Cont b3 && utf8Valid r
      | _ => false
    else if b = 0xF0 then
      match rest with
      | b2 :: b3 :: b4 :: r =>
        (0x90 ≤ b2 && b2 ≤ 0xBF) && utf8Cont b3 && utf8Cont b4 && utf8Valid r
      | _ => false
    else if 0xF1 ≤ b && b ≤ 0xF3 then
      match rest with
      | b2 :: b3 :: b4 :: r => utf8Cont b2 && utf8Cont b3 && utf8Cont b4 && utf8Valid r
      | _ => false
    else if b = 0xF4 then
      match rest with
      | b2 :: b3 :: b4 :: r =>
        (0x80 ≤ b2 && b2 ≤ 0x8F) && utf8Cont b3 && utf8Cont b4 && utf8Valid r
      | _ => false
    else false

/-- Python `bs.decode("utf8")`.  A Python `str` is represented by its UTF-8
bytes, so a successful decode is the identity. -/
def pyDecodeUtf8 (bs : List Nat) : PyRes (List Nat) :=
  if utf8Valid bs then .ok bs else .raise .unicodeDecodeError

/-- Modelled from the spec: the KVLM value shape of the missing `kvlm.py`
(§4.2) — a key maps to a single byte-string value, or to an ordered list when
the key repeated. -/
inductive KvlmVal where
  | single (v : List Nat)
  | multi (vs : List (List Nat))
deriving DecidableEq, Repr

/-- Modelled from the spec: the ordered mapping produced by `kvlm_parse` of the
missing `kvlm.py` (§4.2) — header fields in first-seen order plus the no-key
free-text message stored under the reserved `None` slot. -/
structure Kvlm where
  fields : List (List Nat × KvlmVal)
  message : List Nat
deriving DecidableEq, Repr

/-- Continuation-line escaping used on serialization: each newline inside a
value is followed by one space. -/
def kvlmEscapeNl (v : List Nat) : List Nat :=
  v.foldr (fun c acc => if c = 10 then 10 :: 32 :: acc else c :: acc) []

/-- Modelled from the spec: `kvlm_serialize` of the missing `kvlm.py` (§4.2) —
keys in mapping order, one `key SPACE escaped-value NEWLINE` line per value,
then a blank line and the message. -/
def kvlm_serialize (k : Kvlm) : List Nat :=
  (k.fields.foldl (fun acc f =>
    let vs := match f.2 with | .single v => [v] | .multi vs => vs
    acc ++ vs.foldl (fun a v => a ++ f.1 ++ [32] ++ kvlmEscapeNl v ++ [10]) []) [])
  ++ [10] ++ k.message

/-- `GitTreeLeaf` of gitobject.py: mode bytes, path (a Python `str`, embedded
as UTF-8 bytes) and a 40-hex-digit identifier string. -/
structure GitTreeLeaf where
  mode : List Nat
  path : List Nat
  sha : String
deriving DecidableEq, Repr

/-- The in-memory object kinds of gitobject.py: GitBlob carries `blobdata`,
GitCommit/GitTag carry a `kvlm`, GitTree carries `items`. -/
inductive GitObj where
  | blob (blobdata : List Nat)
  | commit (kvlm : Kvlm)
  | tree (items : List GitTreeLeaf)
  | tag (kvlm : Kvlm)
deriving DecidableEq, Repr

def objFmt : GitObj → List Nat
  | .blob _ => strBytes "blob"
  | .commit _ => strBytes "commit"
  | .tree _ => strBytes "tree"
  | .tag _ => strBytes "tag"

/-- `GitBlob(data)`: `GitObject.__init__` calls `self.deserialize(data)` and
GitBlob defines `deserialize`, which stores the payload in `blobdata`. -/
def mkGitBlob (data : List Nat) : PyRes GitObj := .ok (.blob data)

/-- `GitCommit(data)`: `GitObject.__init__` calls `self.deserialize(data)`, but
GitCommit (line 43 of gitobject.py) defines only the misspelled
`desearialize`, and no class in the hierarchy defines `deserialize`, so the
attribute lookup raises AttributeError before any parsing happens. -/
def mkGitCommit (_data : List Nat) : PyRes GitObj := .raise .attributeError

/-- `GitTree(data)`: like GitCommit, GitTree (line 120 of gitobject.py)
defines only the misspelled `desearialize`; constructing it from data raises
AttributeError. -/
def mkGitTree (_data : List Nat) : PyRes GitObj := .raise .attributeError

/-- `GitTag(data)`: GitTag inherits from GitCommit and adds nothing, so it
raises AttributeError for the same reason. -/
def mkGitTag (_data : List Nat) : PyRes GitObj := .raise .attributeError

/-- `tree_leaf_sort_key` of gitobject.py: the path itself for modes starting
with "10", otherwise the path with "/" appended. -/
def tree_leaf_sort_key (leaf : GitTreeLeaf) : List Nat :=
  if (strBytes "10").isPrefixOf leaf.mode then leaf.path else leaf.path ++ [47]

/-- Lexicographic ≤ on byte lists; Python compares `str` sort keys by code
point, which on UTF-8 bytes is exactly this order. -/
def byteLe : List Nat → List Nat → Bool
  | [], _ => true
  | _ :: _, [] => false
  | a :: as, b :: bs => if a < b then true else if b < a then false else byteLe as bs

def treeSortInsert (x : GitTreeLeaf) : List GitTreeLeaf → List GitTreeLeaf
  | [] => [x]
  | y :: ys =>
    if byteLe (tree_leaf_sort_key x) (tree_leaf_sort_key y) then x :: y :: ys
    else y :: treeSortInsert x ys

/-- Python's stable `list.sort(key=tree_leaf_sort_key)` as an insertion sort:
an element is inserted before the later elements whose key is ≥ its own, so
equal keys keep their original order. -/
def treeSort : List GitTreeLeaf → List GitTreeLeaf
  | [] => []
  | x :: xs => treeSortInsert x (treeSort xs)

/-- `tree_serializer` of gitobject.py: sort the items, then per item emit the
mode bytes, a space, the UTF-8 path, a NUL, and `int(i.sha, 16).to_bytes(20,
byteorder="bit")` — note the source really passes the invalid byteorder
string "bit" (line 113), so the `to_bytes` call raises ValueError. -/
def tree_serializer (items : List GitTreeLeaf) : PyRes (List Nat) :=
  let rec go : List GitTreeLeaf → List Nat → PyRes (List Nat)
    | [], acc => .ok acc
    | i :: rest, acc =>
      match pyIntHex i.sha with
      | .raise e => .raise e
      | .ok sha =>
        match intToBytesPy sha 20 "bit" with
        | .raise e => .raise e
        | .ok shaBytes => go rest (acc ++ i.mode ++ [32] ++ i.path ++ [0] ++ shaBytes)
  go (treeSort items) []

/-- `serialize` dispatched over the four classes: blobdata for blobs,
`kvlm_serialize` for commits and tags, `tree_serializer` for trees. -/
def serializeObj : GitObj → PyRes (List Nat)
  | .blob d => .ok d
  | .commit k => .ok (kvlm_serialize k)
  | .tag k => .ok (kvlm_serialize k)
  | .tree items => tree_serializer items

/-- The header-framed bytes `b"<fmt> <len>\x00<data>"` built by `object_write`
(line 88 of gitobject_utils.py). -/
def objHeaderBytes (fmtB data : List Nat) : List Nat :=
  fmtB ++ [32] ++ strBytes (toString data.length) ++ [0] ++ data

/-- Serialize-and-frame: the bytes `object_write` computes the identifier from
and stores (before zlib compression, which is modelled as the identity). -/
def encodeObj (o : GitObj) : PyRes (List Nat) :=
  match serializeObj o with
  | .raise e => .raise e
  | .ok data => .ok (objHeaderBytes (objFmt o) data)

/-- The body of `object_read` (lines 25–42 of gitobject_utils.py) applied to
the decompressed bytes: find the space, read the type tag, find the NUL, parse
and validate the declared length, then dispatch on the tag. -/
def object_read_raw (raw : List Nat) : PyRes GitObj :=
  let x := pyByteFind raw 32 0
  let fmtB := pySlice raw 0 x
  let y := pyByteFind raw 0 x
  match pyInt (pySlice raw x y) with
  | .raise e => .raise e
  | .ok size =>
    if size ≠ (raw.length : Int) - y - 1 then .raise .malformed
    else
      let data := pySlice raw (y + 1) (raw.length : Int)
      if fmtB = strBytes "commit" then mkGitCommit data
      else if fmtB = strBytes "tree" then mkGitTree data
      else if fmtB = strBytes "tag" then mkGitTag data
      else if fmtB = strBytes "blob" then mkGitBlob data
      else .raise .unknownType

/-- `GitIndexEntry`'s attribute record.  Note there is deliberately no
`mode_perms` field: `__init__` (line 153 of gitobject.py) assigns the
`mode_perms` argument to `self.mode_type` and never creates a `mode_perms`
attribute. -/
structure GitIndexEntry where
  ctime : Nat × Nat
  mtime : Nat × Nat
  dev : Nat
  ino : Nat
  mode_type : Nat
  uid : Nat
  gid : Nat
  fsize : Nat
  sha : String
  flag_assume_valid : Bool
  flag_stage : Nat
  name : List Nat
deriving DecidableEq, Repr

/-- `GitIndexEntry.__init__`: every attribute is stored from its argument of
the same name, except that `self.mode_type` is assigned the `mode_perms`
argument (the `mode_type` argument is dropped, and no `mode_perms` attribute
is ever created). -/
def mkGitIndexEntry (ctime mtime : Nat × Nat) (dev ino mode_type mode_perms uid gid fsize : Nat)
    (sha : String) (flag_assume_valid : Bool) (flag_stage : Nat) (name : List Nat) :
    GitIndexEntry :=
  { ctime := ctime, mtime := mtime, dev := dev, ino := ino,
    mode_type := mode_perms,
    uid := uid, gid := gid, fsize := fsize, sha := sha,
    flag_assume_valid := flag_assume_valid, flag_stage := flag_stage, name := name }

structure GitIndex where
  version : Nat
  entries : List GitIndexEntry
deriving DecidableEq, Repr

/-- `GitIndex(version=2, entries=None)`: when `entries` is `None` (or empty —
the guard is `if not entries`) a *fresh* empty list is allocated for this
instance, so no two constructed indexes share their entry list. -/
def gitIndexInit (version : Nat) (entries : Option (List GitIndexEntry)) : GitIndex :=
  match entries with
  | none => { version := version, entries := [] }
  | some es => if es.isEmpty then { version := version, entries := [] }
               else { version := version, entries := es }

/-- Big-endian `n.to_bytes(len, "big")` without the range check (used where the
value is already known to fit). -/
def natToBytesBE (n len : Nat) : List Nat :=
  (List.range len).map (fun i => n / 256 ^ (len - 1 - i) % 256)

/-- SHA-1: left rotation on 32-bit words represented as `Nat (mod 2^32)`. -/
def rotl32 (n x : Nat) : Nat := ((x <<< n) ||| (x >>> (32 - n))) % 2 ^ 32

/-- SHA-1 message padding: 0x80, zeros to 56 mod 64, then the bit length on 8
big-endian bytes. -/
def sha1Pad (msg : List Nat) : List Nat :=
  msg ++ [128] ++ List.replicate ((119 - msg.length % 64) % 64) 0
      ++ natToBytesBE (msg.length * 8) 8

def chunks64 : List Nat → List (List Nat)
  | [] => []
  | a :: rest => ((a :: rest).take 64) :: chunks64 ((a :: rest).drop 64)
termination_by l => l.length
decreasing_by simp; omega

def sha1Words (block : List Nat) : List Nat :=
  (List.range 16).map (fun i => bytesToNatBE ((block.drop (4 * i)).take 4))

def sha1Extend (w0 : List Nat) : List Nat :=
  (List.range 64).foldl (fun w i =>
    w ++ [rotl32 1 ((((w.getD (i + 13) 0) ^^^ (w.getD (i + 8) 0)) ^^^ (w.getD (i + 2) 0)) ^^^ (w.getD i 0))]) w0

def sha1Compress (h : Nat × Nat × Nat × Nat × Nat) (block : List Nat) :
    Nat × Nat × Nat × Nat × Nat :=
  let w := sha1Extend (sha1Words block)
  let (h0, h1, h2, h3, h4) := h
  let step := fun (st : Nat × Nat × Nat × Nat × Nat) (t : Nat) =>
    let (a, b, c, d, e) := st
    let fk : Nat × Nat :=
      if t < 20 then ((b &&& c) ||| ((b ^^^ 0xFFFFFFFF) &&& d), 0x5A827999)
      else if t < 40 then ((b ^^^ c) ^^^ d, 0x6ED9EBA1)
      else if t < 60 then ((b &&& c) ||| (b &&& d) ||| (c &&& d), 0x8F1BBCDC)
      else ((b ^^^ c) ^^^ d, 0xCA62C1D6)
    let temp := (rotl32 5 a + fk.1 + e + fk.2 + w.getD t 0) % 2 ^ 32
    (temp, a, rotl32 30 b, c, d)
  let (a, b, c, d, e) := (List.range 80).foldl step (h0, h1, h2, h3, h4)
  ((h0 + a) % 2 ^ 32, (h1 + b) % 2 ^ 32, (h2 + c) % 2 ^ 32, (h3 + d) % 2 ^ 32,
   (h4 + e) % 2 ^ 32)

/-- `hashlib.sha1(msg).hexdigest()`. -/
def sha1hex (msg : List Nat) : String :=
  let r := (chunks64 (sha1Pad msg)).foldl sha1Compress
    (0x67452301, 0xEFCDAB89, 0x98BADCFE, 0x10325476, 0xC3D2E1F0)
  pyFormatHex r.1 8 ++ pyFormatHex r.2.1 8 ++ pyFormatHex r.2.2.1 8
    ++ pyFormatHex r.2.2.2.1 8 ++ pyFormatHex r.2.2.2.2 8

/-- The on-disk object database: identifier to stored bytes.  The
`objects/<2-char-dir>/<38-char-file>` path mapping and the zlib compression
applied at line 99 (inverted by the decompression at line 22) are collapsed:
files are keyed directly by identifier and hold the uncompressed payload. -/
abbrev Store := List (String × List Nat)

def storeHas (s : Store) (k : String) : Bool := s.any (fun kv => kv.1 = k)

def storeGet (s : Store) (k : String) : Option (List Nat) :=
  (s.find? (fun kv => kv.1 = k)).map (·.2)

def storeAdd (s : Store) (k : String) (v : List Nat) : Store := s ++ [(k, v)]

/-- `object_write` (lines 84–101 of gitobject_utils.py): serialize, frame with
`b"<fmt> <len>\x00"`, hash the framed bytes with SHA-1; when `repo` is given
and no file for the identifier exists yet, the bytes are persisted; an
already-present file is left untouched.  Always returns the identifier. -/
def object_write (obj : GitObj) (repo : Bool) (store : Store) : PyRes (String × Store) :=
  match serializeObj obj with
  | .raise e => .raise e
  | .ok data =>
    let result := objHeaderBytes (objFmt obj) data
    let sha := sha1hex result
    if repo then
      if storeHas store sha then .ok (sha, store)
      else .ok (sha, storeAdd store sha result)
    else .ok (sha, store)

/-- Python `l[i]` for a non-negative index: IndexError past the end. -/
def pyIndexAt (l : List Nat) (i : Nat) : PyRes Nat :=
  match l.get? i with
  | some v => .ok v
  | none => .raise .indexError

/-- One fixed-size index entry parse, lines 370–451 of gitobject_utils.py, at
offset `idx` of `content`: all the big-endian fields, the three asserts
(reserved word zero, known mode type, extended flag clear), the
name-length/flags unpacking, the NUL-checked name read, and the 8-byte
alignment of the next offset.  Out-of-range slices silently truncate (as
Python slices do); only the subscript `content[idx + name_length]` can raise
IndexError.  Returns the advanced offset and the entry built by
`GitIndexEntry.__init__` (with its `mode_type := mode_perms` slip). -/
def index_parse_entry (content : List Nat) (idx : Nat) : PyRes (Nat × GitIndexEntry) :=
  let ctime_s := bytesToNatBE (pySlice content idx (idx + 4))
  let ctime_ns := bytesToNatBE (pySlice content (idx + 4) (idx + 8))
  let mtime_s := bytesToNatBE (pySlice content (idx + 8) (idx + 12))
  let mtime_ns := bytesToNatBE (pySlice content (idx + 12) (idx + 16))
  let dev := bytesToNatBE (pySlice content (idx + 16) (idx + 20))
  let ino := bytesToNatBE (pySlice content (idx + 20) (idx + 24))
  let unused := bytesToNatBE (pySlice content (idx + 24) (idx + 26))
  if unused ≠ 0 then .raise .assertFail
  else
    let mode := bytesToNatBE (pySlice content (idx + 26) (idx + 28))
    let mode_type := mode >>> 12
    if ¬(mode_type = 8 ∨ mode_type = 10 ∨ mode_type = 14) then .raise .assertFail
    else
      let mode_perms := mode &&& 0x1FF
      let uid := bytesToNatBE (pySlice content (idx + 28) (idx + 32))
      let gid := bytesToNatBE (pySlice content (idx + 32) (idx + 36))
      let fsize := bytesToNatBE (pySlice content (idx + 36) (idx + 40))
      let sha := pyFormatHex (bytesToNatBE (pySlice content (idx + 40) (idx + 60))) 40
      let flags := bytesToNatBE (pySlice content (idx + 60) (idx + 62))
      let flag_assume_valid := flags &&& 0x8000 ≠ 0
      if flags &&& 0x4000 ≠ 0 then .raise .assertFail
      else
        let flag_stage := flags &&& 0x3000
        let name_length := flags &&& 0xFFF
        let idx := idx + 62
        let readName : PyRes (Nat × List Nat) :=
          if name_length < 0xFFF then
            match pyIndexAt content (idx + name_length) with
            | .raise e => .raise e
            | .ok b =>
              if b ≠ 0 then .raise .assertFail
              else .ok (idx + name_length + 1, pySlice content idx (idx + name_length))
          else
            let null_idx := pyByteFind content 0 ((idx : Int) + 0xFFF)
            .ok ((null_idx + 1).toNat, pySlice content idx null_idx)
        match readName with
        | .raise e => .raise e
        | .ok (idx, raw_name) =>
          match pyDecodeUtf8 raw_name with
          | .raise e => .raise e
          | .ok name =>
            let idx := 8 * ((idx + 7) / 8)
            .ok (idx, mkGitIndexEntry (ctime_s, ctime_ns) (mtime_s, mtime_ns) dev ino
                        mode_type mode_perms uid gid fsize sha flag_assume_valid
                        flag_stage name)

/-- `index_read` applied to the raw bytes of an existing index file (lines
353–453 of gitobject_utils.py): check the `DIRC` signature and version-2
asserts, read the entry count, then run the entry loop.  The
`return GitIndex(...)` statement at line 453 is indented *inside* the `for`
body, so when `count` is zero the loop body never runs and the function falls
off the end returning Python `None` (modelled as `.ok none`), and when
`count` is nonzero the function returns after parsing the first entry only. -/
def index_read_raw (raw : List Nat) : PyRes (Option GitIndex) :=
  let header := pySlice raw 0 12
  if pySlice header 0 4 ≠ strBytes "DIRC" then .raise .assertFail
  else
    let version := bytesToNatBE (pySlice header 4 8)
    if version ≠ 2 then .raise .assertFail
    else
      let count := bytesToNatBE (pySlice header 8 12)
      let content := pySlice raw 12 (raw.length : Int)
      if count = 0 then .ok none
      else
        match index_parse_entry content 0 with
        | .raise e => .raise e
        | .ok (_, entry) => .ok (some { version := version, entries := [entry] })

/-- `index_read` (lines 346–453): `none` models a missing index file, in which
case a fresh empty version-2 `GitIndex()` is returned. -/
def index_read (file : Option (List Nat)) : PyRes (Option GitIndex) :=
  match file with
  | none => .ok (some (gitIndexInit 2 none))
  | some raw => index_read_raw raw

/-- The per-entry body of `index_write`'s loop (lines 471–513): the six
4-byte time/device/inode fields are written, and then the statement
`mode = (e.mode_type << 12) | e.mode_perms` evaluates `e.mode_perms` — an
attribute `GitIndexEntry.__init__` never sets — so AttributeError is raised
for every entry.  (The remaining writes — mode, uid, gid, size, sha, flags,
name, NUL, padding — are unreachable.) -/
def index_write_entry (e : GitIndexEntry) : PyRes (List Nat) :=
  match intToBytesPy e.ctime.1 4 "big" with
  | .raise err => .raise err
  | .ok c1 =>
    match intToBytesPy e.ctime.2 4 "big" with
    | .raise err => .raise err
    | .ok c2 =>
      match intToBytesPy e.mtime.1 4 "big" with
      | .raise err => .raise err
      | .ok m1 =>
        match intToBytesPy e.mtime.2 4 "big" with
        | .raise err => .raise err
        | .ok m2 =>
          match intToBytesPy e.dev 4 "big" with
          | .raise err => .raise err
          | .ok dv =>
            match intToBytesPy e.ino 4 "big" with
            | .raise err => .raise err
            | .ok io' =>
              let _written := c1 ++ c2 ++ m1 ++ m2 ++ dv ++ io'
              .raise .attributeError

def index_write_loop : List GitIndexEntry → List Nat → PyRes (List Nat)
  | [], acc => .ok acc
  | e :: rest, acc =>
    match index_write_entry e with
    | .raise err => .raise err
    | .ok eb => index_write_loop rest (acc ++ eb)

/-- `index_write` (lines 456–513): the 12-byte header (magic, version, entry
count) followed by the per-entry loop.  The bytes written before an exception
do land in the file, but the exception propagates to the caller; `.raise`
models that propagation. -/
def index_write (index : GitIndex) : PyRes (List Nat) :=
  match intToBytesPy index.version 4 "big" with
  | .raise err => .raise err
  | .ok vb =>
    match intToBytesPy index.entries.length 4 "big" with
    | .raise err => .raise err
    | .ok cb => index_write_loop index.entries (strBytes "DIRC" ++ vb ++ cb)

/-- `tree_parse_one` (lines 61–79 of gitobject.py): find the mode's space
terminator (asserting a 5- or 6-byte mode), normalize a 5-byte mode by
prepending a space, find the path's NUL terminator, decode the path as UTF-8,
and read `raw[y+1:y+21]` as the big-endian identifier formatted `"040x"` —
a short slice silently yields fewer than 20 bytes.  Returns the new cursor
`y + 21` and the leaf. -/
def tree_parse_one (raw : List Nat) (start : Int) : PyRes (Int × GitTreeLeaf) :=
  let x := pyByteFind raw 32 start
  if x - start = 5 ∨ x - start = 6 then
    let mode0 := pySlice raw start x
    let mode := if mode0.length = 5 then 32 :: mode0 else mode0
    let y := pyByteFind raw 0 x
    match pyDecodeUtf8 (pySlice raw (x + 1) y) with
    | .raise e => .raise e
    | .ok path =>
      let sha := pyFormatHex (bytesToNatBE (pySlice raw (y + 1) (y + 21))) 40
      .ok (y + 21, { mode := mode, path := path, sha := sha })
  else .raise .assertFail

/-- The `while pos < max` loop of `tree_parse` (lines 82–90).  The fuel bounds
the iteration count; a cursor that stops advancing (possible only when a NUL
terminator is missing, where Python would loop forever re-reading the same
position) exhausts it. -/
def tree_parse_go (raw : List Nat) : Nat → Int → List GitTreeLeaf → PyRes (List GitTreeLeaf)
  | 0, _, _ => .raise .nonTermination
  | fuel + 1, pos, acc =>
    if pos < (raw.length : Int) then
      match tree_parse_one raw pos with
      | .raise e => .raise e
      | .ok (pos', leaf) => tree_parse_go raw fuel pos' (acc ++ [leaf])
    else .ok acc

def tree_parse (raw : List Nat) : PyRes (List GitTreeLeaf) :=
  tree_parse_go raw (raw.length + 1) 0 []

/-- `os.path.dirname` (posixpath): everything up to the last slash, keeping a
head that consists only of slashes, otherwise with trailing slashes
stripped; no slash gives the empty path. -/
def dirnameBytes (p : List Nat) : List Nat :=
  match p.reverse.findIdx? (· = 47) with
  | none => []
  | some i =>
    let head := p.take (p.length - i)
    if head.all (· = 47) then head
    else (head.reverse.dropWhile (· = 47)).reverse

/-- `os.path.basename` (posixpath): everything after the last slash. -/
def basenameBytes (p : List Nat) : List Nat :=
  match p.reverse.findIdx? (· = 47) with
  | none => p
  | some i => p.drop (p.length - i)

/-- A value of the `contents` buckets in `tree_from_index`: either a
`GitIndexEntry` (a staged file) or a `(basename, SHA)` pair registered for an
already-written subtree. -/
inductive Dirent where
  | file (e : GitIndexEntry)
  | sub (base : List Nat) (sha : String)
deriving DecidableEq, Repr

/-- The `contents` dictionary: insertion-ordered keys (as CPython dicts are). -/
abbrev BDict := List (List Nat × List Dirent)

def dictHasKey (d : BDict) (k : List Nat) : Bool := d.any (fun kv => kv.1 = k)

def dictGet (d : BDict) (k : List Nat) : Option (List Dirent) :=
  (d.find? (fun kv => kv.1 = k)).map (·.2)

/-- Assignment `d[k] = v`: updates an existing key in place (keeping its
position) or appends a new key at the end. -/
def dictSet : BDict → List Nat → List Dirent → BDict
  | [], k, v => [(k, v)]
  | (k', v') :: rest, k, v =>
    if k' = k then (k, v) :: rest else (k', v') :: dictSet rest k v

/-- The `while key != ""` ancestor-bucket loop of `tree_from_index` (lines
216–219).  Faithful to the source slip: a missing bucket is created under the
*literal* string `"key"` (`contents["key"] = list()`), not under the value of
`key`.  The fuel covers relative paths, whose dirname chains strictly shrink;
Python would loop forever on an all-slash key. -/
def mkAncestorBuckets : Nat → BDict → List Nat → PyRes BDict
  | 0, _, _ => .raise .nonTermination
  | fuel + 1, contents, key =>
    if key = [] then .ok contents
    else
      let contents' := if dictHasKey contents key then contents
                       else dictSet contents (strBytes "key") []
      mkAncestorBuckets fuel contents' (dirnameBytes key)

/-- Building one leaf from a bucket element (lines 241–253).  For a file
entry, `"{:02o}{:04o}".format(entry.mode_type, entry.mode_perms)` evaluates
`entry.mode_perms`, an attribute `GitIndexEntry.__init__` never sets, so
AttributeError is raised; a subtree pair becomes a leaf with the fixed
directory mode `b"040000"`. -/
def direntToLeaf : Dirent → PyRes GitTreeLeaf
  | .file _ => .raise .attributeError
  | .sub base sha => .ok { mode := strBytes "040000", path := base, sha := sha }

def bucketToItems : List Dirent → List GitTreeLeaf → PyRes (List GitTreeLeaf)
  | [], acc => .ok acc
  | d :: rest, acc =>
    match direntToLeaf d with
    | .raise e => .raise e
    | .ok leaf => bucketToItems rest (acc ++ [leaf])

/-- Stable insert for `sorted(keys, key=len, reverse=True)`: skip earlier
elements only while they are strictly longer, so equal lengths keep their
original order. -/
def pathInsertDesc (x : List Nat) : List (List Nat) → List (List Nat)
  | [] => [x]
  | y :: ys => if x.length < y.length then y :: pathInsertDesc x ys else x :: y :: ys

def sortPathsDesc : List (List Nat) → List (List Nat)
  | [] => []
  | x :: xs => pathInsertDesc x (sortPathsDesc xs)

/-- The per-path loop of `tree_from_index` (lines 236–262): build a tree from
the bucket, write it to the store, and register `(basename, sha)` into the
parent bucket. -/
def tree_from_index_paths : List (List Nat) → BDict → Store → PyRes Store
  | [], _, store => .ok store
  | path :: rest, contents, store =>
    match dictGet contents path with
    | none => .raise .keyError
    | some bucket =>
      match bucketToItems bucket [] with
      | .raise e => .raise e
      | .ok items =>
        match object_write (.tree items) true store with
        | .raise e => .raise e
        | .ok (sha, store') =>
          let parent := dirnameBytes path
          let base := basenameBytes path
          match dictGet contents parent with
          | none => .raise .keyError
          | some pb =>
            tree_from_index_paths rest (dictSet contents parent (pb ++ [.sub base sha])) store'

/-- `tree_from_index` (lines 203–262 of gitobject_utils.py), faithful to its
indentation: the `for entry` loop body consists only of the assignment
`dirname = os.path.dirname(entry.name)`, so the ancestor-bucket block and the
`contents[dirname].append(entry)` statement run once, after the loop, with the
*last* entry's dirname (with no entries at all, `key = dirname` would read an
unbound local — NameError).  Then the keys are sorted by length descending and
each bucket is written.  The function body has no final `return`, so on
success Python returns `None`; the updated store is returned alongside. -/
def tree_from_index (index : GitIndex) (store : Store) : PyRes (Option String × Store) :=
  let contents : BDict := [([], [])]
  match index.entries.getLast? with
  | none => .raise .nameError
  | some lastEntry =>
    let dn := dirnameBytes lastEntry.name
    match mkAncestorBuckets (dn.length + 1) contents dn with
    | .raise e => .raise e
    | .ok contents =>
      match dictGet contents dn with
      | none => .raise .keyError
      | some bucket =>
        let contents := dictSet contents dn (bucket ++ [.file lastEntry])
        match tree_from_index_paths (sortPathsDesc (contents.map (·.1))) contents store with
        | .raise e => .raise e
        | .ok store' => .ok (none, store')

/-- Repository state seen by name resolution and object reads: ref files (path
to full file text), the `objects/<2-hex>` directory listings used by the
short-hash scan, and the object files themselves keyed by identifier. -/
structure Repo where
  refs : List (String × String)
  objectDirs : List (String × List String)
  objects : Store

/-- `ref_resolve` (lines 270–288 of gitobject_utils.py): a missing file gives
Python `None`; otherwise the file text minus its final character is either an
indirection `"ref: <path>"`, which is followed recursively, or a direct
identifier.  Fuel models Python's recursion limit on indirection cycles. -/
def ref_resolve (repo : Repo) : Nat → String → PyRes (Option String)
  | 0, _ => .raise .nonTermination
  | fuel + 1, ref =>
    match repo.refs.lookup ref with
    | none => .ok none
    | some content =>
      let data := String.mk content.data.dropLast
      if ("ref: ".data).isPrefixOf data.data then
        ref_resolve repo fuel (String.mk (data.data.drop 5))
      else .ok (some data)

/-- The regex `^[0-9A-Fa-f]{4,40}$` of `object_resolve`. -/
def hexNameMatch (name : String) : Bool :=
  4 ≤ name.length && name.length ≤ 40 &&
    name.data.all (fun c =>
      ('0' ≤ c && c ≤ '9') || ('a' ≤ c && c ≤ 'f') || ('A' ≤ c && c ≤ 'F'))

/-- The short/long-hash scan of `object_resolve` (lines 146–159): for a
hex-looking name, list the `objects/<first-2-chars>` directory (no candidates
when it does not exist) and keep every filename starting with the remainder,
re-attaching the directory's 2-character name. -/
def hashCandidates (repo : Repo) (name : String) : List String :=
  if hexNameMatch name then
    let lower := name.data.map Char.toLower
    let p2 := String.mk (lower.take 2)
    let rem := lower.drop 2
    match repo.objectDirs.lookup p2 with
    | none => []
    | some files =>
      (files.filter (fun f => rem.isPrefixOf f.data)).map (fun f => p2 ++ f)
  else []

/-- Append a ref-lookup result to the candidate pool the way the source's
`if as_tag:` truthiness test does: `None` and the empty string are skipped. -/
def refCandidate : Option String → List (Option String)
  | none => []
  | some t => if t.data.isEmpty then [] else [some t]

/-- `object_resolve` (lines 118–170 of gitobject_utils.py): a blank name gives
Python `None`; the literal `HEAD` short-circuits to a one-element list holding
`ref_resolve`'s result (which may itself be `None`); otherwise the hash-scan,
tag and branch candidates are pooled in that order. -/
def object_resolve (repo : Repo) (fuel : Nat) (name : String) :
    PyRes (Option (List (Option String))) :=
  if name.data.all Char.isWhitespace then .ok none
  else if name = "HEAD" then
    match ref_resolve repo fuel "HEAD" with
    | .raise e => .raise e
    | .ok r => .ok (some [r])
  else
    match ref_resolve repo fuel ("refs/tags/" ++ name) with
    | .raise e => .raise e
    | .ok tagc =>
      match ref_resolve repo fuel ("refs/heads/" ++ name) with
      | .raise e => .raise e
      | .ok brc =>
        .ok (some ((hashCandidates repo name).map some ++ refCandidate tagc
                    ++ refCandidate brc))

/-- `object_read` (lines 12–22 plus the parsing body): a missing object file
gives Python `None`; otherwise the decompressed bytes are parsed by
`object_read_raw`. -/
def object_read (repo : Repo) (sha : String) : PyRes (Option GitObj) :=
  match storeGet repo.objects sha with
  | none => .ok none
  | some raw =>
    match object_read_raw raw with
    | .raise e => .raise e
    | .ok o => .ok (some o)

def kvlmOf : GitObj → PyRes Kvlm
  | .commit k => .ok k
  | .tag k => .ok k
  | _ => .raise .attributeError

/-- `obj.kvlm[key].decode("ascii")`: KeyError when the key is absent, and a
list value (a repeated key) has no `.decode`, so AttributeError. -/
def kvlmFieldAscii (k : Kvlm) (key : List Nat) : PyRes String :=
  match k.fields.lookup key with
  | none => .raise .keyError
  | some (.single v) =>
    if v.all (· < 128) then .ok (String.mk (v.map Char.ofNat))
    else .raise .unicodeDecodeError
  | some (.multi _) => .raise .attributeError

/-- The `while True` follow loop of `object_find` (lines 62–81): read the
object (`obj.fmt` on a missing object's `None` raises AttributeError), return
the current identifier on a type match, bail out with `None` when not
following, follow a tag's `object` field or a commit's `tree` field, and
return `None` for any other pair. -/
def object_find_loop (repo : Repo) : Nat → String → List Nat → Bool → PyRes (Option String)
  | 0, _, _, _ => .raise .nonTermination
  | fuel + 1, sha, fmtB, follow =>
    match object_read repo sha with
    | .raise e => .raise e
    | .ok none => .raise .attributeError
    | .ok (some obj) =>
      if objFmt obj = fmtB then .ok (some sha)
      else if !follow then .ok none
      else if objFmt obj = strBytes "tag" then
        match kvlmOf obj with
        | .raise e => .raise e
        | .ok k =>
          match kvlmFieldAscii k (strBytes "object") with
          | .raise e => .raise e
          | .ok s => object_find_loop repo fuel s fmtB follow
      else if objFmt obj = strBytes "commit" && fmtB = strBytes "tree" then
        match kvlmOf obj with
        | .raise e => .raise e
        | .ok k =>
          match kvlmFieldAscii k (strBytes "tree") with
          | .raise e => .raise e
          | .ok s => object_find_loop repo fuel s fmtB follow
      else .ok none

/-- `object_find` (lines 44–81 of gitobject_utils.py): resolve the name; an
empty result (`None` or `[]`, both falsy) raises the no-such-reference error;
two or more candidates raise the ambiguous-reference error naming them all;
otherwise take the single element — which, for `HEAD` in a fresh repository,
can be Python `None`: with no expected format it is returned as-is, and with
one the `object_read(repo, None)` call would raise TypeError inside
`repo_file`. -/
def object_find (repo : Repo) (fuel : Nat) (name : String) (fmtB : Option (List Nat))
    (follow : Bool) : PyRes (Option String) :=
  match object_resolve repo fuel name with
  | .raise e => .raise e
  | .ok none => .raise .notFound
  | .ok (some []) => .raise .notFound
  | .ok (some (c :: cs)) =>
    if (c :: cs).length > 1 then .raise (.ambiguous (c :: cs))
    else
      match c, fmtB with
      | none, none => .ok none
      | none, some _ => .raise .typeError
      | some sha, none => .ok (some sha)
      | some sha, some f => object_find_loop repo fuel sha f follow

/-- The candidate pool `object_resolve` builds for a non-`HEAD`, non-blank
name, given the two ref-lookup outcomes. -/
def resolveCandidatePool (repo : Repo) (name : String) (tagc brc : Option String) :
    List (Option String) :=
  (hashCandidates repo name).map some ++ refCandidate tagc ++ refCandidate brc

/-- Decimal value of a digit byte string (used to state what `pyInt` returns
on the object header's length field). -/
def digitsVal (ds : List Nat) : Nat := ds.foldl (fun a d => a * 10 + (d - 48)) 0

/-- A concrete commit object (one `tree` header field and a message). -/
def exCommitC1 : Kvlm :=
  { fields := [(strBytes "tree", .single (strBytes "29ff16c9c14e2652b22f8b78bb08a5a07930c147"))]
    message := strBytes "hello\n" }

/-- The framed encoding of `exCommitC1`: its KVLM payload is 53 bytes. -/
def c1Bytes : List Nat := strBytes "commit 53" ++ [0] ++ kvlm_serialize exCommitC1

/-- A staged regular file entry (mode type 0b1000, perms 0o644). -/
def c2SampleEntry : GitIndexEntry :=
  mkGitIndexEntry (1, 2) (3, 4) 5 6 8 420 1000 1000 3
    "da39a3ee5e6b4b0d3255bfef95601890afd80709" false 0 (strBytes "README.txt")

def c3EntryReadme : GitIndexEntry :=
  mkGitIndexEntry (0, 0) (0, 0) 0 0 8 420 0 0 6
    "a8a940627d132695a9769df883f85992f0ff4a43" false 0 (strBytes "README.txt")

def c3EntryMain : GitIndexEntry :=
  mkGitIndexEntry (0, 0) (0, 0) 0 0 8 420 0 0 5
    "ce013625030ba8dba906f756967f9e9ca394464a" false 0 (strBytes "src/main.txt")

/-- The claim's staging scenario in index order (README.txt, src/main.txt). -/
def c3Index : GitIndex := { version := 2, entries := [c3EntryReadme, c3EntryMain] }

/-- The same two staged files with src/main.txt first. -/
def c3IndexRev : GitIndex := { version := 2, entries := [c3EntryMain, c3EntryReadme] }

/-- The claim's example file entry `{mode:"100644", path:"b.txt", id:X}`. -/
def c4LeafB : GitTreeLeaf :=
  { mode := strBytes "100644", path := strBytes "b.txt"
    sha := "ce013625030ba8dba906f756967f9e9ca394464a" }

/-- The claim's example directory entry `{mode:"40000", path:"a", id:Y}`. -/
def c4LeafA : GitTreeLeaf :=
  { mode := strBytes "40000", path := strBytes "a"
    sha := "a8a940627d132695a9769df883f85992f0ff4a43" }

/-- An object file whose type tag `foo` is unrecognized *and* whose declared
length 5 mismatches its 3-byte payload. -/
def c6CexBytes : List Nat := strBytes "foo 5" ++ [0] ++ strBytes "abc"

/-- A tree payload whose entry is truncated: after the path's NUL terminator
only one byte (0xAB) remains instead of 20. -/
def c8CexBytes : List Nat := strBytes "100644 a" ++ [0, 171]

/-- A second truncated tree payload (two identifier bytes), for instantiating
the general statement. -/
def c8WitnessBytes : List Nat := strBytes "100644 ab" ++ [0, 1, 2]

/-- A fresh repository with no commits: `HEAD` indirects to a branch ref file
that does not exist. -/
def freshRepo : Repo :=
  { refs := [("HEAD", "ref: refs/heads/main\n")], objectDirs := [], objects := [] }

/-- A repository where the name `v1` is both a tag and a branch. -/
def c5Repo : Repo :=
  { refs := [("refs/tags/v1", "abc\n"), ("refs/heads/v1", "def\n")]
    objectDirs := [], objects := [] }

/-- C1: the claimed round-trip `decode(encode(o)) == o` fails for Commit (and
likewise Tree and Tag): encoding the concrete commit `exCommitC1` succeeds and
produces a well-formed `commit`-tagged buffer, but decoding it raises
AttributeError, because `GitObject.__init__` calls `self.deserialize(data)`
while GitCommit/GitTree/GitTag only define the misspelled `desearialize`. -/
theorem c1_commit_decode_encode_attribute_error :
    encodeObj (GitObj.commit exCommitC1) = .ok c1Bytes ∧
    object_read_raw c1Bytes = .raise .attributeError := by decide

/-- C2: the claimed index round-trip `decode(encode(index)) == index` fails
even in scope of the claim (version 2, short names).  For the empty index,
`index_write` emits the 12-byte header but `index_read` returns Python `None`
(its `return` is indented inside the entry loop, whose body never runs);
for any nonempty index, `index_write` itself raises AttributeError because
`GitIndexEntry.__init__` never sets `mode_perms`. -/
theorem c2_index_write_read_mismatch :
    index_write { version := 2, entries := [] } =
      .ok (strBytes "DIRC" ++ [0, 0, 0, 2] ++ [0, 0, 0, 0]) ∧
    index_read_raw (strBytes "DIRC" ++ [0, 0, 0, 2] ++ [0, 0, 0, 0]) = .ok none ∧
    index_write { version := 2, entries := [c2SampleEntry] } = .raise .attributeError := by
  decide

/-- C3: committing the staged files README.txt and src/main.txt does not write
two tree objects — `tree_from_index` crashes before writing anything.  With
the entries in index order the post-loop bucket code (mis-indented out of the
entry loop) creates the bucket under the literal string `"key"` and then
`contents["src"].append(...)` raises KeyError; with the entries reversed the
single root bucket is reached but building its first leaf evaluates the
missing `mode_perms` attribute and raises AttributeError. -/
theorem c3_tree_from_index_crashes :
    tree_from_index c3Index [] = .raise .keyError ∧
    tree_from_index c3IndexRev [] = .raise .attributeError := by decide

/-- C4 counterexample: on the claim's own two entries, serialization does not
emit any bytes (let alone mode, space, path, NUL and 20 big-endian identifier
bytes with the directory `a` first) — it raises ValueError, because line 113
of gitobject.py calls `to_bytes(20, byteorder="bit")` with an invalid
byteorder string. -/
theorem c4_counterexample_example_pair_raises :
    tree_serializer [c4LeafB, c4LeafA] = .raise .valueError := by decide

/-- C6 counterexample: on the buffer `b"foo 5\x00abc"` the type tag `foo` is
unrecognized, yet decoding raises the Malformed (bad length) error, not
UnknownType — the length check runs first, so "UnknownType whenever the tag is
unrecognized" is false as stated. -/
theorem c6_counterexample_malformed_wins :
    object_read_raw c6CexBytes = .raise .malformed ∧
    object_read_raw c6CexBytes ≠ .raise .unknownType := by decide

/-- C8 counterexample: a tree entry whose path terminator is followed by a
single byte (0xAB) instead of 20 does NOT fail with any truncation error:
`raw[y+1:y+21]` silently truncates, the identifier becomes the zero-padded
hex of that one byte, and parsing returns one leaf successfully. -/
theorem c8_counterexample_truncated_sha_parses :
    tree_parse c8CexBytes =
      .ok [{ mode := strBytes "100644", path := strBytes "a",
             sha := "00000000000000000000000000000000000000ab" }] := by decide

/-- C9 counterexample: on a fresh repository whose HEAD indirects to a
missing branch file, `object_resolve "HEAD"` returns the one-element list
`[None]` — not zero candidates — and `object_find` consequently returns
Python `None` instead of raising the NotFound error the claim describes. -/
theorem c9_counterexample_head_not_notfound :
    object_resolve freshRepo 1000 "HEAD" = .ok (some [none]) ∧
    object_find freshRepo 1000 "HEAD" none true = .ok none ∧
    object_find freshRepo 1000 "HEAD" none true ≠ .raise .notFound := by decide

/-- C10: with no index file on disk, `index_read` does not fail: it returns a
fresh `GitIndex()` with version 2 and an empty entry list (the constructor's
`entries` default is `None`, for which a new empty list is allocated on every
call, so no two reads share an entry list). -/
theorem c10_index_read_missing_file_fresh_empty :
    index_read none = .ok (some { version := 2, entries := [] }) ∧
    gitIndexInit 2 none = { version := 2, entries := [] } := by decide

lemma bFindAux_append (b : Nat) (l r : List Nat) (hl : b ∉ l) :
    bFindAux b (l ++ b :: r) = some l.length := by
  induction l with
  | nil => simp [bFindAux]
  | cons c cs ih =>
    have hc : ¬(c = b) := fun h => hl (h ▸ List.mem_cons_self c cs)
    simp [bFindAux, hc, ih (fun h => hl (List.mem_cons_of_mem c h))]

lemma pyByteFind_zero (raw : List Nat) (b : Nat) :
    pyByteFind raw b 0 =
      (match bFindAux b raw with | some i => (i : Int) | none => -1) := by
  unfold pyByteFind
  norm_num

lemma pyByteFind_nat (raw : List Nat) (b : Nat) (k : Nat) (hk : k ≤ raw.length) :
    pyByteFind raw b (k : Int) =
      (match bFindAux b (raw.drop k) with
       | some i => ((k + i : Nat) : Int)
       | none => -1) := by
  unfold pyByteFind
  have h1 : ¬((k : Int) < 0) := by omega
  have h2 : min (k : Int) (raw.length : Int) = (k : Int) := by omega
  rw [if_neg h1, h2]
  norm_num

lemma pySlice_nat (raw : List Nat) (i j : Nat) (hi : i ≤ raw.length) :
    pySlice raw (i : Int) (j : Int) = (raw.take j).drop i := by
  have h1 : ¬((i : Int) < 0) := by omega
  have h2 : ¬((j : Int) < 0) := by omega
  have h3 : min (i : Int) (raw.length : Int) = (i : Int) := by omega
  have h4 : (min (j : Int) (raw.length : Int)).toNat = min j raw.length := by omega
  have h5 : ((i : Int)).toNat = i := by omega
  simp only [pySlice, if_neg h1, if_neg h2, h3, h4, h5]
  congr 1
  rw [List.take_eq_take]
  omega

lemma dropWhile_all_false {p : Nat → Bool} : ∀ (l : List Nat),
    (∀ c ∈ l, p c = false) → l.dropWhile p = l
  | [], _ => rfl
  | a :: as, h => by
    rw [List.dropWhile_cons, h a (List.mem_cons_self a as)]
    simp

lemma digitsFold_int (ds : List Nat) (a : Nat) (hd : ∀ d ∈ ds, 48 ≤ d) :
    ds.foldl (fun (x : Int) (d : Nat) => x * 10 + ((d : Int) - 48)) (a : Int) =
      ((ds.foldl (fun x d => x * 10 + (d - 48)) a : Nat) : Int) := by
  induction ds generalizing a with
  | nil => rfl
  | cons d rest ih =>
    have h48 : 48 ≤ d := hd d (List.mem_cons_self d rest)
    simp only [List.foldl_cons]
    rw [show (a : Int) * 10 + ((d : Int) - 48) = ((a * 10 + (d - 48) : Nat) : Int) by omega]
    exact ih _ (fun x hx => hd x (List.mem_cons_of_mem d hx))

lemma pyInt_space_digits (digits : List Nat) (hne : digits ≠ [])
    (hdig : ∀ d ∈ digits, 48 ≤ d ∧ d ≤ 57) :
    pyInt (32 :: digits) = .ok ((digitsVal digits : Nat) : Int) := by
  have hds : ∀ c ∈ digits, pyIsSpace c = false := by
    intro c hc
    have h1 := (hdig c hc).1
    have h2 := (hdig c hc).2
    simp [pyIsSpace]
    omega
  have hany : (32 :: digits).any (fun c => decide (128 ≤ c)) = false := by
    rw [List.any_eq_false]
    intro c hc
    rcases List.mem_cons.mp hc with h | h
    · simp [h]
    · have := (hdig c h).2
      simp
      omega
  have hdw : (32 :: digits).dropWhile pyIsSpace = digits := by
    rw [List.dropWhile_cons]
    rw [if_pos (show pyIsSpace 32 = true from rfl)]
    exact dropWhile_all_false digits hds
  have hdw2 : digits.reverse.dropWhile pyIsSpace = digits.reverse :=
    dropWhile_all_false _ (fun c hc => hds c (List.mem_reverse.mp hc))
  simp only [pyInt, hany, Bool.false_eq_true, if_false, hdw, hdw2, List.reverse_reverse]
  cases digits with
  | nil => exact absurd rfl hne
  | cons d ds =>
    have hd1 := (hdig d (List.mem_cons_self d ds)).1
    have hd2 := (hdig d (List.mem_cons_self d ds)).2
    have hsign : (d = 45 || d = 43) = false := by simp; omega
    have hall : (d :: ds).all isAsciiDigit = true := by
      rw [List.all_eq_true]
      intro c hc
      have := hdig c hc
      simp [isAsciiDigit]
      omega
    simp only [hsign, Bool.false_eq_true, if_false, List.isEmpty_cons, Bool.not_false,
      hall, Bool.and_self, if_true]
    rw [if_neg (show ¬(d = 45) by omega)]
    rw [show (0 : Int) = ((0 : Nat) : Int) from rfl]
    rw [digitsFold_int (d :: ds) 0 (fun x hx => (hdig x hx).1)]
    rfl

/-- Evaluation of `object_read_raw` on a well-framed buffer
`fmt ++ b" " ++ digits ++ b"\x00" ++ payload`: the declared length is compared
with the payload length first, and only then is the type tag dispatched. -/
lemma object_read_raw_framed (fmtB digits payload : List Nat)
    (hsp : 32 ∉ fmtB) (hne : digits ≠ [])
    (hdig : ∀ d ∈ digits, 48 ≤ d ∧ d ≤ 57) :
    object_read_raw (fmtB ++ 32 :: digits ++ 0 :: payload) =
      (if digitsVal digits ≠ payload.length then .raise .malformed
       else if fmtB = strBytes "commit" then .raise .attributeError
       else if fmtB = strBytes "tree" then .raise .attributeError
       else if fmtB = strBytes "tag" then .raise .attributeError
       else if fmtB = strBytes "blob" then .ok (.blob payload)
       else .raise .unknownType) := by
  set raw := fmtB ++ 32 :: digits ++ 0 :: payload with hraw
  have hlen : raw.length = fmtB.length + digits.length + payload.length + 2 := by
    simp [hraw]
    omega
  have h0nd : (0 : Nat) ∉ (32 :: digits) := by
    intro h
    rcases List.mem_cons.mp h with h | h
    · omega
    · have := (hdig 0 h).1
      omega
  have hx : pyByteFind raw 32 0 = (fmtB.length : Int) := by
    rw [pyByteFind_zero]
    have h : raw = fmtB ++ 32 :: (digits ++ 0 :: payload) := by simp [hraw]
    rw [h, bFindAux_append 32 fmtB _ hsp]
  have hfmt : pySlice raw 0 (fmtB.length : Int) = fmtB := by
    have h := pySlice_nat raw 0 fmtB.length (by omega)
    have h2 : ((0 : Nat) : Int) = (0 : Int) := rfl
    rw [h2] at h
    rw [h, List.drop_zero]
    have h3 : raw = fmtB ++ (32 :: digits ++ 0 :: payload) := by simp [hraw]
    rw [h3, List.take_left]
  have hy : pyByteFind raw 0 (fmtB.length : Int) =
      ((fmtB.length + (digits.length + 1) : Nat) : Int) := by
    rw [pyByteFind_nat raw 0 fmtB.length (by omega)]
    have hdrop : raw.drop fmtB.length = (32 :: digits) ++ 0 :: payload := by
      have h3 : raw = fmtB ++ (32 :: digits ++ 0 :: payload) := by simp [hraw]
      rw [h3, List.drop_left]
    rw [hdrop, bFindAux_append 0 (32 :: digits) payload h0nd]
    simp
  have hslice : pySlice raw (fmtB.length : Int)
      ((fmtB.length + (digits.length + 1) : Nat) : Int) = 32 :: digits := by
    rw [pySlice_nat raw fmtB.length (fmtB.length + (digits.length + 1)) (by omega)]
    have h3 : raw = (fmtB ++ 32 :: digits) ++ 0 :: payload := by simp [hraw]
    have hlen2 : fmtB.length + (digits.length + 1) = (fmtB ++ 32 :: digits).length := by
      simp
    rw [h3, hlen2, List.take_left]
    exact List.drop_left fmtB _
  have hdata : pySlice raw (((fmtB.length + (digits.length + 1) : Nat) : Int) + 1)
      (raw.length : Int) = payload := by
    have hc : (((fmtB.length + (digits.length + 1) : Nat) : Int) + 1) =
        ((fmtB.length + digits.length + 2 : Nat) : Int) := by push_cast; ring
    rw [hc, pySlice_nat raw _ raw.length (by omega), List.take_length]
    have h3 : raw = (fmtB ++ 32 :: digits ++ [0]) ++ payload := by simp [hraw]
    have hL : fmtB.length + digits.length + 2 = (fmtB ++ 32 :: digits ++ [0]).length := by
      simp
      omega
    rw [h3, hL, List.drop_left]
  have hint := pyInt_space_digits digits hne hdig
  simp only [object_read_raw, hx, hy, hfmt, hslice, hdata, hint]
  have hsz : (raw.length : Int) - ((fmtB.length + (digits.length + 1) : Nat) : Int) - 1 =
      (payload.length : Int) := by
    rw [hlen]
    push_cast
    ring
  rw [hsz]
  simp only [ne_eq, Nat.cast_inj]
  simp only [mkGitCommit, mkGitTree, mkGitTag, mkGitBlob]

/-- C6 (amended): the Malformed (bad-length) check runs before the type-tag
dispatch.  On a well-framed header, a length mismatch always yields the
Malformed error; an unrecognized tag yields UnknownType only when the length
matches; and a recognized tag with a matching length yields neither of those
two errors (for commit/tree/tag the constructor then raises AttributeError,
which is a different failure). -/
theorem c6_amended_length_check_first (fmtB digits payload : List Nat)
    (hsp : 32 ∉ fmtB) (hne : digits ≠ [])
    (hdig : ∀ d ∈ digits, 48 ≤ d ∧ d ≤ 57) :
    (digitsVal digits ≠ payload.length →
      object_read_raw (fmtB ++ 32 :: digits ++ 0 :: payload) = .raise .malformed) ∧
    (digitsVal digits = payload.length →
      fmtB ≠ strBytes "commit" → fmtB ≠ strBytes "tree" → fmtB ≠ strBytes "tag" →
      fmtB ≠ strBytes "blob" →
      object_read_raw (fmtB ++ 32 :: digits ++ 0 :: payload) = .raise .unknownType) ∧
    (digitsVal digits = payload.length →
      (fmtB = strBytes "commit" ∨ fmtB = strBytes "tree" ∨ fmtB = strBytes "tag" ∨
        fmtB = strBytes "blob") →
      object_read_raw (fmtB ++ 32 :: digits ++ 0 :: payload) ≠ .raise .malformed ∧
      object_read_raw (fmtB ++ 32 :: digits ++ 0 :: payload) ≠ .raise .unknownType) := by
  have hfr := object_read_raw_framed fmtB digits payload hsp hne hdig
  refine ⟨?_, ?_, ?_⟩
  · intro h
    rw [hfr, if_pos h]
  · intro h h1 h2 h3 h4
    rw [hfr, if_neg (fun hc => hc h), if_neg h1, if_neg h2, if_neg h3, if_neg h4]
  · intro h hf
    rw [hfr, if_neg (fun hc => hc h)]
    rcases hf with hf | hf | hf | hf
    · rw [if_pos hf]
      exact ⟨by simp, by simp⟩
    · rw [if_neg (by rw [hf]; decide), if_pos hf]
      exact ⟨by simp, by simp⟩
    · rw [if_neg (by rw [hf]; decide), if_neg (by rw [hf]; decide), if_pos hf]
      exact ⟨by simp, by simp⟩
    · rw [if_neg (by rw [hf]; decide), if_neg (by rw [hf]; decide),
        if_neg (by rw [hf]; decide), if_pos hf]
      exact ⟨by simp, by simp⟩

/-- C6 witness: the well-formed blob `b"blob 3\x00abc"` raises neither the
Malformed nor the UnknownType error. -/
theorem c6_witness_blob :
    object_read_raw (strBytes "blob" ++ 32 :: [51] ++ 0 :: strBytes "abc") ≠
        .raise .malformed ∧
    object_read_raw (strBytes "blob" ++ 32 :: [51] ++ 0 :: strBytes "abc") ≠
        .raise .unknownType :=
  (c6_amended_length_check_first (strBytes "blob") [51] (strBytes "abc") (by decide)
    (by decide) (by decide)).2.2 (by decide) (by decide)

lemma tree_parse_go_stop (raw : List Nat) (fuel : Nat) (pos : Int)
    (acc : List GitTreeLeaf) (hf : fuel ≠ 0) (hpos : ¬(pos < (raw.length : Int))) :
    tree_parse_go raw fuel pos acc = .ok acc := by
  cases fuel with
  | zero => exact absurd rfl hf
  | succ n =>
    simp only [tree_parse_go]
    rw [if_neg hpos]

/-- C8 (amended): tree decoding does NOT fail when fewer than 20 bytes remain
after a path's NUL terminator.  For a buffer holding one entry whose
identifier field is any strict prefix of 20 bytes, parsing succeeds with a
single leaf whose identifier is the big-endian value of the remaining bytes,
zero-padded to 40 hex digits; the cursor jumps past the end of the buffer and
the loop exits. -/
theorem c8_amended_truncated_tree_parses (mode path shaB : List Nat)
    (hm : mode.length = 6) (hmsp : 32 ∉ mode) (hp0 : (0 : Nat) ∉ path)
    (hputf : utf8Valid path = true) (hsha : shaB.length < 20) :
    tree_parse (mode ++ 32 :: path ++ 0 :: shaB) =
      .ok [{ mode := mode, path := path, sha := pyFormatHex (bytesToNatBE shaB) 40 }] := by
  set raw := mode ++ 32 :: path ++ 0 :: shaB with hraw
  have hlen : raw.length = mode.length + path.length + shaB.length + 2 := by
    simp [hraw]
    omega
  have h0np : (0 : Nat) ∉ (32 :: path) := by
    intro h
    rcases List.mem_cons.mp h with h | h
    · omega
    · exact hp0 h
  have hx : pyByteFind raw 32 0 = (mode.length : Int) := by
    rw [pyByteFind_zero]
    have h : raw = mode ++ 32 :: (path ++ 0 :: shaB) := by simp [hraw]
    rw [h, bFindAux_append 32 mode _ hmsp]
  have hmode : pySlice raw 0 (mode.length : Int) = mode := by
    have h := pySlice_nat raw 0 mode.length (by omega)
    have h2 : ((0 : Nat) : Int) = (0 : Int) := rfl
    rw [h2] at h
    rw [h, List.drop_zero]
    have h3 : raw = mode ++ (32 :: path ++ 0 :: shaB) := by simp [hraw]
    rw [h3, List.take_left]
  have hy : pyByteFind raw 0 (mode.length : Int) =
      ((mode.length + (path.length + 1) : Nat) : Int) := by
    rw [pyByteFind_nat raw 0 mode.length (by omega)]
    have hdrop : raw.drop mode.length = (32 :: path) ++ 0 :: shaB := by
      have h3 : raw = mode ++ (32 :: path ++ 0 :: shaB) := by simp [hraw]
      rw [h3, List.drop_left]
    rw [hdrop, bFindAux_append 0 (32 :: path) shaB h0np]
    simp
  have hpath : pySlice raw ((mode.length : Int) + 1)
      ((mode.length + (path.length + 1) : Nat) : Int) = path := by
    have hc : (mode.length : Int) + 1 = ((mode.length + 1 : Nat) : Int) := by push_cast; ring
    rw [hc, pySlice_nat raw _ (mode.length + (path.length + 1)) (by omega)]
    have h3 : raw = (mode ++ 32 :: path) ++ 0 :: shaB := by simp [hraw]
    have hlen2 : mode.length + (path.length + 1) = (mode ++ 32 :: path).length := by simp
    rw [h3, hlen2, List.take_left]
    have h4 : mode ++ 32 :: path = (mode ++ [32]) ++ path := by simp
    have h5 : mode.length + 1 = (mode ++ [32]).length := by simp
    rw [h4, h5, List.drop_left]
  have hshaSlice : pySlice raw (((mode.length + (path.length + 1) : Nat) : Int) + 1)
      ((((mode.length + (path.length + 1) : Nat)) : Int) + 21) = shaB := by
    have hc1 : ((mode.length + (path.length + 1) : Nat) : Int) + 1 =
        ((mode.length + path.length + 2 : Nat) : Int) := by push_cast; ring
    have hc2 : ((mode.length + (path.length + 1) : Nat) : Int) + 21 =
        ((mode.length + path.length + 22 : Nat) : Int) := by push_cast; ring
    rw [hc1, hc2, pySlice_nat raw _ _ (by omega)]
    have htake : raw.take (mode.length + path.length + 22) = raw := by
      apply List.take_of_length_le
      omega
    rw [htake]
    have h3 : raw = (mode ++ 32 :: path ++ [0]) ++ shaB := by simp [hraw]
    have hL : mode.length + path.length + 2 = (mode ++ 32 :: path ++ [0]).length := by
      simp
      omega
    rw [h3, hL, List.drop_left]
  have hdec : pyDecodeUtf8 path = .ok path := by simp [pyDecodeUtf8, hputf]
  have hone : tree_parse_one raw 0 =
      .ok (((mode.length + (path.length + 1) : Nat) : Int) + 21,
        { mode := mode, path := path, sha := pyFormatHex (bytesToNatBE shaB) 40 }) := by
    simp only [tree_parse_one, hx, hy, hmode, hpath, hshaSlice, hdec]
    rw [if_pos (show ((mode.length : Int) - 0 = 5 ∨ (mode.length : Int) - 0 = 6) by
      right
      rw [hm]
      norm_num)]
    rw [if_neg (show ¬(mode.length = 5) by omega)]
  have hfuel : raw.length ≠ 0 := by omega
  unfold tree_parse
  simp only [tree_parse_go]
  rw [if_pos (show (0 : Int) < (raw.length : Int) by omega)]
  rw [hone]
  exact tree_parse_go_stop raw raw.length _ _ hfuel (by push_cast; omega)

/-- C8 witness: a 6-byte mode, 2-byte path and a 2-byte identifier field
instantiate the amended statement. -/
theorem c8_witness_two_byte_sha :
    tree_parse (strBytes "100644" ++ 32 :: strBytes "ab" ++ 0 :: [1, 2]) =
      .ok [{ mode := strBytes "100644", path := strBytes "ab",
             sha := pyFormatHex (bytesToNatBE [1, 2]) 40 }] :=
  c8_amended_truncated_tree_parses (strBytes "100644") (strBytes "ab") [1, 2]
    (by decide) (by decide) (by decide) (by decide) (by decide)

lemma treeSortInsert_ne_nil (x : GitTreeLeaf) (l : List GitTreeLeaf) :
    treeSortInsert x l ≠ [] := by
  cases l with
  | nil => simp [treeSortInsert]
  | cons y ys =>
    simp only [treeSortInsert]
    split <;> simp

lemma pyIntHex_raise_eq (s : String) (e : PyErr) (h : pyIntHex s = .raise e) :
    e = .valueError := by
  simp only [pyIntHex] at h
  split at h
  · injection h with h'
    exact h'.symm
  · split at h
    · exact absurd h (by simp)
    · injection h with h'
      exact h'.symm

lemma intToBytesPy_bit (n len : Nat) : intToBytesPy n len "bit" = .raise .valueError := rfl

lemma tree_serializer_go_raises (i : GitTreeLeaf) (rest : List GitTreeLeaf)
    (acc : List Nat) : tree_serializer.go (i :: rest) acc = .raise .valueError := by
  unfold tree_serializer.go
  cases h : pyIntHex i.sha with
  | raise e =>
    dsimp only
    rw [pyIntHex_raise_eq i.sha e h]
  | ok sha =>
    dsimp only
    rw [intToBytesPy_bit]

/-- C4 (amended): only the empty tree serializes (to the empty byte string).
For every nonempty item list — in particular after the sort with the
trailing-slash key has run — processing the first entry reaches
`int(i.sha, 16).to_bytes(20, byteorder="bit")` and raises ValueError (an
invalid identifier string would raise the same ValueError one step earlier),
so no entry bytes are ever emitted and no space-trimming of the mode ever
happens. -/
theorem c4_amended_tree_serializer_raises :
    tree_serializer [] = .ok [] ∧
    ∀ items : List GitTreeLeaf, items ≠ [] →
      tree_serializer items = .raise .valueError := by
  constructor
  · rfl
  · intro items hne
    unfold tree_serializer
    cases hs : treeSort items with
    | nil =>
      exfalso
      cases items with
      | nil => exact hne rfl
      | cons a l =>
        rw [show treeSort (a :: l) = treeSortInsert a (treeSort l) from rfl] at hs
        exact treeSortInsert_ne_nil a (treeSort l) hs
    | cons i rest => exact tree_serializer_go_raises i rest []

/-- C4 witness: the single directory entry `a` instantiates the nonempty case
of the amended statement. -/
theorem c4_witness_single_leaf : tree_serializer [c4LeafA] = .raise .valueError :=
  c4_amended_tree_serializer_raises.2 [c4LeafA] (by decide)

lemma storeHas_add_self (s : Store) (k : String) (v : List Nat) :
    storeHas (storeAdd s k v) k = true := by
  simp [storeHas, storeAdd, List.any_append]

/-- C7: for any object whose `serialize` succeeds, `object_write` returns the
SHA-1 of the header-framed bytes `b"<fmt> <len>\x00<payload>"` as the
identifier, never raises, leaves the store untouched when that identifier is
already present, and a second write of the same object returns the same
identifier with the store unchanged (idempotence). -/
theorem c7_object_write_sha1_idempotent (obj : GitObj) (data : List Nat) (store : Store)
    (h : serializeObj obj = .ok data) :
    ∃ store1 : Store,
      object_write obj true store =
        .ok (sha1hex (objHeaderBytes (objFmt obj) data), store1) ∧
      (storeHas store (sha1hex (objHeaderBytes (objFmt obj) data)) = true →
        store1 = store) ∧
      object_write obj true store1 =
        .ok (sha1hex (objHeaderBytes (objFmt obj) data), store1) := by
  by_cases hc : storeHas store (sha1hex (objHeaderBytes (objFmt obj) data)) = true
  · refine ⟨store, ?_, fun _ => rfl, ?_⟩ <;>
      simp only [object_write, h, hc, if_true, if_pos]
  · refine ⟨storeAdd store (sha1hex (objHeaderBytes (objFmt obj) data))
      (objHeaderBytes (objFmt obj) data), ?_, ?_, ?_⟩
    · simp only [object_write, h]
      rw [if_pos trivial, if_neg hc]
    · intro hcc
      exact absurd hcc hc
    · simp only [object_write, h]
      rw [if_pos trivial, if_pos (storeHas_add_self store _ _)]

/-- C7 witness: writing the blob `b"abc"` into an empty store. -/
theorem c7_witness_blob_abc :
    ∃ store1 : Store,
      object_write (GitObj.blob (strBytes "abc")) true [] =
        .ok (sha1hex (objHeaderBytes (objFmt (GitObj.blob (strBytes "abc")))
          (strBytes "abc")), store1) ∧
      (storeHas [] (sha1hex (objHeaderBytes (objFmt (GitObj.blob (strBytes "abc")))
          (strBytes "abc"))) = true → store1 = []) ∧
      object_write (GitObj.blob (strBytes "abc")) true store1 =
        .ok (sha1hex (objHeaderBytes (objFmt (GitObj.blob (strBytes "abc")))
          (strBytes "abc")), store1) :=
  c7_object_write_sha1_idempotent (GitObj.blob (strBytes "abc")) (strBytes "abc") [] rfl

/-- C9 (amended): in a repository whose HEAD ref chain resolves to nothing (a
broken indirection, as in a fresh repository with no commits), resolving the
name `HEAD` yields the one-element candidate list `[None]` — not zero
candidates — and `object_find` with no expected type returns Python `None`
without raising NotFound. -/
theorem c9_amended_head_broken_ref (repo : Repo) (fuel : Nat)
    (h : ref_resolve repo fuel "HEAD" = .ok none) :
    object_resolve repo fuel "HEAD" = .ok (some [none]) ∧
    object_find repo fuel "HEAD" none true = .ok none := by
  have hres : object_resolve repo fuel "HEAD" = .ok (some [none]) := by
    unfold object_resolve
    rw [if_neg (by decide), if_pos rfl, h]
  refine ⟨hres, ?_⟩
  simp only [object_find, hres]
  norm_num

/-- C9 witness: the fresh repository (HEAD indirecting to a missing
refs/heads/main) instantiates the amended statement. -/
theorem c9_witness_fresh_repo :
    object_resolve freshRepo 1000 "HEAD" = .ok (some [none]) ∧
    object_find freshRepo 1000 "HEAD" none true = .ok none :=
  c9_amended_head_broken_ref freshRepo 1000 (by decide)

/-- C5: for any non-blank name other than the literal `HEAD`, `object_resolve`
returns exactly the pool made of the hash-prefix-scan candidates followed by
the `refs/tags/<name>` and `refs/heads/<name>` lookups, and `object_find`
dispatches on the pool's size: zero candidates raise the no-such-reference
error, exactly one resolves to that candidate, and two or more raise the
ambiguous-reference error naming the whole pool — never silently picking one. -/
theorem c5_resolution_pools_and_dispatch (repo : Repo) (fuel : Nat) (name : String)
    (tagc brc : Option String)
    (hblank : name.data.all Char.isWhitespace = false)
    (hhead : name ≠ "HEAD")
    (htag : ref_resolve repo fuel ("refs/tags/" ++ name) = .ok tagc)
    (hbr : ref_resolve repo fuel ("refs/heads/" ++ name) = .ok brc) :
    object_resolve repo fuel name = .ok (some (resolveCandidatePool repo name tagc brc)) ∧
    (resolveCandidatePool repo name tagc brc = [] →
      object_find repo fuel name none true = .raise .notFound) ∧
    (∀ c, resolveCandidatePool repo name tagc brc = [c] →
      object_find repo fuel name none true = .ok c) ∧
    (2 ≤ (resolveCandidatePool repo name tagc brc).length →
      object_find repo fuel name none true =
        .raise (.ambiguous (resolveCandidatePool repo name tagc brc))) := by
  have hres : object_resolve repo fuel name =
      .ok (some (resolveCandidatePool repo name tagc brc)) := by
    unfold object_resolve resolveCandidatePool
    rw [if_neg (by simp [hblank]), if_neg hhead, htag, hbr]
  refine ⟨hres, ?_, ?_, ?_⟩
  · intro hp
    simp only [object_find, hres, hp]
  · intro c hp
    simp only [object_find, hres, hp]
    norm_num
    cases c <;> rfl
  · intro hp
    rcases hpool : resolveCandidatePool repo name tagc brc with _ | ⟨c, cs⟩
    · rw [hpool] at hp
      simp at hp
    · rw [hpool] at hp
      simp only [object_find, hres, hpool]
      rw [if_pos (by omega)]

/-- C5 witness: in `c5Repo` the name `v1` is both a tag and a branch, so the
pool has two candidates and `object_find` raises the ambiguous error naming
both. -/
theorem c5_witness_ambiguous :
    object_find c5Repo 10 "v1" none true =
      .raise (.ambiguous (resolveCandidatePool c5Repo "v1" (some "abc") (some "def"))) :=
  (c5_resolution_pools_and_dispatch c5Repo 10 "v1" (some "abc") (some "def")
    (by decide) (by decide) (by decide) (by decide)).2.2.2 (by decide)
